import Mathlib

/-!
Verification of the Markdown-to-HTML core of the StaticSiteGenerator
repository (src/htmlnode.py and src/textnode.py), shallowly embedded in
Lean 4.  Python strings are modelled as `List Char`; Python `ValueError`
exceptions are modelled by the `PyResult` sum type carrying the message.
Every definition follows the corresponding Python function line by line.
-/

/-- Python strings, modelled as lists of characters. -/
abbrev Str := List Char

/-- Shorthand turning a Lean string literal into the `Str` model. -/
def S (s : String) : Str := s.toList

/-- Python whitespace characters recognised by `str.strip()` / regex `\s`
(ASCII fragment, which covers every input appearing in this development). -/
def isPySpace (c : Char) : Bool :=
  c == ' ' || c == '\t' || c == '\n' || c == '\r' || c == '\x0b' || c == '\x0c'

/-- Does `s` start with the character sequence `p`?  (Python `startswith`.) -/
def leadMatch : Str → Str → Bool
  | [], _ => true
  | _ :: _, [] => false
  | p :: ps, c :: cs => p == c && leadMatch ps cs

/-- Does `s` end with the character sequence `p`?  (Python `endswith`.) -/
def trailMatch (p s : Str) : Bool := leadMatch p.reverse s.reverse

/-- Remove the leading run of characters satisfying `p`. -/
def lstripPred (p : Char → Bool) : Str → Str
  | [] => []
  | c :: cs => if p c then lstripPred p cs else c :: cs

/-- Remove the trailing run of characters satisfying `p`. -/
def rstripPred (p : Char → Bool) : Str → Str
  | [] => []
  | c :: cs =>
    let r := rstripPred p cs
    if r = [] ∧ p c then [] else c :: r

/-- Python `str.strip()`: remove surrounding whitespace. -/
def pyStrip (s : Str) : Str := rstripPred isPySpace (lstripPred isPySpace s)

/-- Length of the leading run of characters satisfying `p`. -/
def leadCount (p : Char → Bool) : Str → Nat
  | [] => 0
  | c :: cs => if p c then leadCount p cs + 1 else 0

/-- Worker for `pySplit`; the fuel starts at the length of the string and
each step consumes at least one character, so it never runs out. -/
def pySplitGo (sep : Str) : Nat → Str → Str → List Str
  | _, acc, [] => [acc.reverse]
  | 0, acc, s => [acc.reverse ++ s]
  | fuel + 1, acc, c :: cs =>
    if leadMatch sep (c :: cs)
    then acc.reverse :: pySplitGo sep fuel [] (cs.drop (sep.length - 1))
    else pySplitGo sep fuel (c :: acc) cs

/-- Python `str.split(sep)` for a non-empty literal separator. -/
def pySplit (sep s : Str) : List Str := pySplitGo sep s.length [] s

/-- Python `str.split(sep, 1)`: split on the first occurrence only. -/
def pySplitOnce (sep : Str) : Str → Str → List Str
  | acc, [] => [acc.reverse]
  | acc, c :: cs =>
    if leadMatch sep (c :: cs)
    then [acc.reverse, cs.drop (sep.length - 1)]
    else pySplitOnce sep (c :: acc) cs

/-- Python `str.removeprefix`: drop `p` from the front when it is there. -/
def cutLead (p s : Str) : Str := if leadMatch p s then s.drop p.length else s

/-- Python `str.removesuffix`: drop `p` from the back when it is there. -/
def cutTrail (p s : Str) : Str :=
  if trailMatch p s then s.take (s.length - p.length) else s

/-- Worker for `natDigits` (the fuel bounds the number of digits). -/
def natDigitsGo : Nat → Nat → Str
  | 0, _ => []
  | fuel + 1, n =>
    if n < 10 then [Char.ofNat (48 + n)]
    else natDigitsGo fuel (n / 10) ++ [Char.ofNat (48 + n % 10)]

/-- Decimal representation of a natural number (Python `str(i)`). -/
def natDigits (n : Nat) : Str := natDigitsGo (n + 1) n

/-- Result of a Python call: either a value or a raised `ValueError`
carrying its message. -/
inductive PyResult (α : Type) where
  | ok (val : α)
  | err (msg : Str)
deriving DecidableEq

/-! ## Node model (`htmlnode.py`) -/

/-- The fixed set of void HTML elements of `LeafNode.VOID_ELEMENTS`. -/
def VOID_ELEMENTS : List Str :=
  [S "area", S "base", S "br", S "col", S "embed", S "hr", S "img",
   S "input", S "link", S "meta", S "param", S "source", S "track", S "wbr"]

/-- Python `self.tag in self.VOID_ELEMENTS` (with `None not in` the set). -/
def isVoidTag : Option Str → Bool
  | none => false
  | some t => VOID_ELEMENTS.contains t

/-- Python falsiness `not self.tag`: absent tag or empty-string tag. -/
def tagFalsy : Option Str → Bool
  | none => true
  | some t => t.isEmpty

/-- Model of `HTMLNode.props_to_html`: empty mapping renders to the empty string,
otherwise a leading space and space-joined `key="value"` pairs in
insertion order, unescaped. -/
def propsToHtml (props : List (Str × Str)) : Str :=
  if props = [] then []
  else ' ' :: List.intercalate [' ']
    (props.map (fun kv => kv.1 ++ '=' :: '"' :: kv.2 ++ ['"']))

/-- The HTML element tree: `LeafNode` and `ParentNode` of `htmlnode.py`. -/
inductive HTMLNode where
  | leaf (tag : Option Str) (value : Option Str) (props : List (Str × Str))
  | parent (tag : Option Str) (children : List HTMLNode) (props : List (Str × Str))

/-- Model of `LeafNode.__init__`: raises unless a non-void leaf carries a value. -/
def mkLeaf (tag value : Option Str) (props : List (Str × Str)) :
    PyResult HTMLNode :=
  if value = none ∧ isVoidTag tag = false
  then .err (S "LeafNode requires a value for non-void elements")
  else .ok (.leaf tag value props)

/-- Model of `ParentNode.__init__`: raises on an absent tag or empty children. -/
def mkParent (tag : Option Str) (children : List HTMLNode)
    (props : List (Str × Str)) : PyResult HTMLNode :=
  if tag = none then .err (S "ParentNode requires a tag")
  else if children.isEmpty = true then .err (S "ParentNode requires children")
  else .ok (.parent tag children props)

/-- Model of `LeafNode.to_html`, line by line: the value-absent check runs first,
then the falsy-tag case returns the value verbatim, then void tags render
with no closing tag, and all other tags render `<tag attrs>value</tag>`. -/
def leafToHtml (tag value : Option Str) (props : List (Str × Str)) :
    PyResult Str :=
  if value = none ∧ isVoidTag tag = false
  then .err (S "LeafNode requires a value for non-void elements")
  else if tagFalsy tag = true then .ok (value.getD [])
  else
    match tag with
    | some t =>
      if isVoidTag (some t) = true
      then .ok ('<' :: t ++ propsToHtml props ++ ['>'])
      else .ok ('<' :: t ++ propsToHtml props ++ ['>'] ++ value.getD [] ++
                '<' :: '/' :: t ++ ['>'])
    | none => .ok (value.getD [])

mutual

/-- Model of `to_html` on the node tree (`LeafNode.to_html` / `ParentNode.to_html`). -/
def toHtml : HTMLNode → PyResult Str
  | .leaf tag value props => leafToHtml tag value props
  | .parent tag children props =>
    match tag with
    | none => .err (S "ParentNode requires a tag")
    | some t =>
      if children.isEmpty = true then .err (S "ParentNode has no children")
      else
        match toHtmlList children with
        | .err e => .err e
        | .ok inner =>
          .ok ('<' :: t ++ propsToHtml props ++ ['>'] ++ inner ++
               '<' :: '/' :: t ++ ['>'])
termination_by structural n => n

/-- Concatenated rendering of a child list, first exception propagating. -/
def toHtmlList : List HTMLNode → PyResult Str
  | [] => .ok []
  | n :: ns =>
    match toHtml n with
    | .err e => .err e
    | .ok s =>
      match toHtmlList ns with
      | .err e => .err e
      | .ok rest => .ok (s ++ rest)
termination_by structural l => l

end

/-- Rendering of a build result: propagate the exception, else `to_html`. -/
def renderResult (r : PyResult HTMLNode) : PyResult Str :=
  match r with
  | .ok n => toHtml n
  | .err e => .err e

/-! ## Text spans and block classification (`textnode.py`) -/

/-- The `TextType` enumeration of inline span kinds. -/
inductive TextType where
  | text
  | bold
  | italic
  | code
  | link
  | image
deriving DecidableEq

/-- The `BlockType` enumeration of block-level kinds. -/
inductive BlockType where
  | paragraph
  | heading
  | code
  | quote
  | unordered_list
  | ordered_list
deriving DecidableEq

/-- A `TextNode`: text, span kind, and the optional URL of links/images.
Equality is componentwise, exactly as `TextNode.__eq__` defines it. -/
structure TextNode where
  text : Str
  text_type : TextType
  url : Option Str := none
deriving DecidableEq

/-- Model of `markdown_to_blocks`: split on the blank-line separator, strip each
piece, and keep the non-empty results in order. -/
def markdownToBlocks (markdown : Str) : List Str :=
  ((pySplit (S "\n\n") markdown).map pyStrip).filter (fun b => decide (b ≠ []))

/-- Model of the heading line regex of the source: one to six leading
hashes followed by a space.  A run of more than six hashes never matches, because every
shorter consumption leaves a hash where the space is required. -/
def headingMatch (line : Str) : Bool :=
  let r := leadCount (fun c => c == '#') line
  decide (1 ≤ r) && decide (r ≤ 6) && ((line.drop r).headD 'x' == ' ')

/-- The ordered-list line scan: line `i` (1-indexed, starting from the
given index) must start with the decimal digits of `i`, a dot, a space. -/
def orderedValidFrom : Nat → List Str → Bool
  | _, [] => true
  | i, l :: ls => leadMatch (natDigits i ++ ['.', ' ']) l && orderedValidFrom (i + 1) ls

/-- Model of `block_to_block_type`: structural classification of one block, with
the heading, code, quote, unordered-list and ordered-list checks in the
order of the source and paragraph as the fallback. -/
def blockToBlockType (block : Str) : BlockType :=
  let lines := pySplit ['\n'] block
  if lines.length = 1 ∧ headingMatch (lines.headD []) = true then .heading
  else if leadMatch (S "```") (pyStrip (lines.headD [])) = true then
    if lines.length = 1 then
      if leadMatch (S "```") (pyStrip block) = true ∧
         trailMatch (S "```") (pyStrip block) = true ∧
         6 < (pyStrip block).length
      then .code else .paragraph
    else if leadMatch (S "```") (pyStrip (lines.getLastD [])) = true then .code
    else .paragraph
  else if lines.all (fun l => leadMatch ['>'] l) = true then .quote
  else if lines.all (fun l => leadMatch ['-', ' '] l) = true then .unordered_list
  else if orderedValidFrom 1 lines = true ∧ 0 < lines.length then .ordered_list
  else .paragraph

/-! ## Inline extraction (`extract_markdown_images` / `_links`)

The two regular expressions contain no genuine backtracking: the
bracket-free and parenthesis-free character classes are consumed
greedily and deterministically, so each is a four-step scan. -/

/-- Match `text](url)` directly after an opening bracket: a bracket-free
run, `](`, a parenthesis-free run, `)`.  Returns the two captures and the
rest of the input after the match. -/
def matchBracketTail (s : Str) : Option (Str × Str × Str) :=
  let txt := s.takeWhile (fun c => !(c == '[' || c == ']'))
  match s.drop txt.length with
  | ']' :: '(' :: r2 =>
    let url := r2.takeWhile (fun c => !(c == '(' || c == ')'))
    (match r2.drop url.length with
     | ')' :: r4 => some (txt, url, r4)
     | _ => none)
  | _ => none

/-- Left-to-right non-overlapping scan for `![alt](url)`.  The fuel
starts at the string length; every step consumes at least one character. -/
def extractImagesGo : Nat → Str → List (Str × Str)
  | 0, _ => []
  | _ + 1, [] => []
  | fuel + 1, c :: cs =>
    if c == '!' then
      match cs with
      | '[' :: cs2 =>
        (match matchBracketTail cs2 with
         | some (alt, url, rest) => (alt, url) :: extractImagesGo fuel rest
         | none => extractImagesGo fuel cs)
      | _ => extractImagesGo fuel cs
    else extractImagesGo fuel cs

/-- Model of `extract_markdown_images`: all `![alt](url)` matches in order. -/
def extractMarkdownImages (text : Str) : List (Str × Str) :=
  extractImagesGo text.length text

/-- Left-to-right scan for `[text](url)` with the `(?<!!)` negative
lookbehind: a match may not start right after an exclamation mark. -/
def extractLinksGo : Nat → Option Char → Str → List (Str × Str)
  | 0, _, _ => []
  | _ + 1, _, [] => []
  | fuel + 1, prev, c :: cs =>
    if c == '[' && !(prev == some '!') then
      match matchBracketTail cs with
      | some (txt, url, rest) => (txt, url) :: extractLinksGo fuel (some ')') rest
      | none => extractLinksGo fuel (some c) cs
    else extractLinksGo fuel (some c) cs

/-- Model of `extract_markdown_links`: all `[text](url)` matches not preceded by
an exclamation mark, in order. -/
def extractMarkdownLinks (text : Str) : List (Str × Str) :=
  extractLinksGo text.length none text

/-! ## Span-to-node conversion and the tokenizer pipeline -/

/-- Model of `text_node_to_html_node`: dispatch on the span kind; links and images
with a falsy (absent or empty) URL raise. -/
def textNodeToHtmlNode (tn : TextNode) : PyResult HTMLNode :=
  match tn.text_type with
  | .text => mkLeaf none (some tn.text) []
  | .bold => mkLeaf (some (S "b")) (some tn.text) []
  | .italic => mkLeaf (some (S "i")) (some tn.text) []
  | .code => mkLeaf (some (S "code")) (some tn.text) []
  | .link =>
    match tn.url with
    | none => .err (S "Link TextNode requires a url")
    | some [] => .err (S "Link TextNode requires a url")
    | some u => mkLeaf (some (S "a")) (some tn.text) [(S "href", u)]
  | .image =>
    match tn.url with
    | none => .err (S "Image TextNode requires a url")
    | some [] => .err (S "Image TextNode requires a url")
    | some u => mkLeaf (some (S "img")) (some []) [(S "src", u), (S "alt", tn.text)]

/-- The loop body of `split_nodes_delimiter`: part `i` keeps kind `text`
when `i` is even and becomes the target kind when `i` is odd; empty parts
are dropped. -/
def processParts (ty : TextType) : Nat → List Str → List TextNode
  | _, [] => []
  | i, p :: ps =>
    (if p = [] then [] else [⟨p, if i % 2 = 0 then .text else ty, none⟩]) ++
    processParts ty (i + 1) ps

/-- Model of `split_nodes_delimiter`: non-plain spans pass through; the
text of a plain span is split on the delimiter, an even part count raises, and the parts
alternate outside/inside starting outside. -/
def splitNodesDelimiter : List TextNode → Str → TextType → PyResult (List TextNode)
  | [], _, _ => .ok []
  | node :: rest, delim, ty =>
    if node.text_type = .text then
      let parts := pySplit delim node.text
      if parts.length % 2 = 0
      then .err (S "Unmatched delimiter " ++ delim ++ S " in text")
      else
        match splitNodesDelimiter rest delim ty with
        | .err e => .err e
        | .ok r => .ok (processParts ty 0 parts ++ r)
    else
      match splitNodesDelimiter rest delim ty with
      | .err e => .err e
      | .ok r => .ok (node :: r)

/-- The literal image token `![alt](url)` reconstructed for splitting. -/
def imageTok (alt url : Str) : Str :=
  '!' :: '[' :: alt ++ ']' :: '(' :: url ++ [')']

/-- The literal link token `[text](url)` reconstructed for splitting. -/
def linkTok (txt url : Str) : Str :=
  '[' :: txt ++ ']' :: '(' :: url ++ [')']

/-- The match loop shared by `split_nodes_image` and `split_nodes_link`:
for each extracted pair, split the remaining text once on the
reconstructed token, emit the non-empty text before it as a plain span,
then the typed span, and finish with the non-empty leftover. -/
def splitOnMatches (mkTok : Str → Str → Str) (kind : TextType) :
    Str → List (Str × Str) → List TextNode
  | remaining, [] => if remaining = [] then [] else [⟨remaining, .text, none⟩]
  | remaining, (a, u) :: rest =>
    let parts := pySplitOnce (mkTok a u) [] remaining
    (if parts.headD [] = [] then [] else [⟨parts.headD [], .text, none⟩]) ++
    ⟨a, kind, some u⟩ :: splitOnMatches mkTok kind (parts.getD 1 []) rest

/-- Model of `split_nodes_image`: non-plain and empty-text spans pass through or
are dropped as in the source; otherwise split around each image match. -/
def splitNodesImage : List TextNode → List TextNode
  | [] => []
  | node :: rest =>
    (if node.text_type = .text then
      if node.text = [] then []
      else
        let images := extractMarkdownImages node.text
        if images = [] then [node]
        else splitOnMatches imageTok .image node.text images
     else [node]) ++ splitNodesImage rest

/-- Model of `split_nodes_link`, the link analogue of `splitNodesImage`. -/
def splitNodesLink : List TextNode → List TextNode
  | [] => []
  | node :: rest =>
    (if node.text_type = .text then
      if node.text = [] then []
      else
        let links := extractMarkdownLinks node.text
        if links = [] then [node]
        else splitOnMatches linkTok .link node.text links
     else [node]) ++ splitNodesLink rest

/-- Model of `text_to_textnodes`: the six-stage pipeline in source order — images,
links, `**` bold, `*` italic, `_` italic, backtick code. -/
def textToTextnodes (text : Str) : PyResult (List TextNode) :=
  let n2 := splitNodesLink (splitNodesImage [⟨text, .text, none⟩])
  match splitNodesDelimiter n2 (S "**") .bold with
  | .err e => .err e
  | .ok n3 =>
    match splitNodesDelimiter n3 (S "*") .italic with
    | .err e => .err e
    | .ok n4 =>
      match splitNodesDelimiter n4 (S "_") .italic with
      | .err e => .err e
      | .ok n5 => splitNodesDelimiter n5 (S "`") .code

/-- Conversion of a span list to HTML nodes, first exception propagating
(the list comprehension of `text_to_children`). -/
def textNodesToChildren : List TextNode → PyResult (List HTMLNode)
  | [] => .ok []
  | t :: ts =>
    match textNodeToHtmlNode t with
    | .err e => .err e
    | .ok h =>
      match textNodesToChildren ts with
      | .err e => .err e
      | .ok hs => .ok (h :: hs)

/-- Model of `text_to_children`: tokenize, then convert every span. -/
def textToChildren (text : Str) : PyResult (List HTMLNode) :=
  match textToTextnodes text with
  | .err e => .err e
  | .ok tns => textNodesToChildren tns

/-! ## Block builders and the document assembler -/

/-- Model of `heading_block_to_html`: require the heading pattern, take the hash
run as the level, and tokenize the block after the character-set strip of
leading hash and space characters used by the source. -/
def headingBlockToHtml (block : Str) : PyResult HTMLNode :=
  if headingMatch block = true then
    match textToChildren (pyStrip (lstripPred (fun c => c == '#' || c == ' ') block)) with
    | .err e => .err e
    | .ok children =>
      mkParent (some ('h' :: natDigits (leadCount (fun c => c == '#') block))) children []
  else .err (S "Invalid heading format")

/-- Model of `paragraph_block_to_html`: tokenize the whole block; an empty child
list is replaced by one empty untagged leaf. -/
def paragraphBlockToHtml (block : Str) : PyResult HTMLNode :=
  match textToChildren block with
  | .err e => .err e
  | .ok children =>
    mkParent (some (S "p"))
      (if children.isEmpty = true then [.leaf none (some []) []] else children) []

/-- Model of the language-identifier regex of the source: a non-empty run
of alphanumeric characters, underscores and dashes. -/
def isLangToken (s : Str) : Bool :=
  decide (s ≠ []) && s.all (fun c => c.isAlphanum || c == '_' || c == '-')

/-- Model of `code_block_to_html`: strip, remove the backtick fences, drop a
leading language-identifier line, and wrap the raw content (untokenized)
in `pre > code`. -/
def codeBlockToHtml (block : Str) : PyResult HTMLNode :=
  let b := pyStrip block
  let content := pyStrip (cutTrail (S "```") (cutLead (S "```") b))
  let lines := pySplit ['\n'] content
  let content2 :=
    if 1 < lines.length ∧ isLangToken (pyStrip (lines.headD [])) = true
    then pyStrip (List.intercalate ['\n'] (lines.drop 1))
    else content
  match textNodeToHtmlNode ⟨content2, .text, none⟩ with
  | .err e => .err e
  | .ok code_node =>
    match mkParent (some (S "code")) [code_node] [] with
    | .err e => .err e
    | .ok inner => mkParent (some (S "pre")) [inner] []

/-- Model of `quote_block_to_html`: drop blank lines, strip from each line
the leading `>` run and whitespace, rejoin with newlines, tokenize once. -/
def quoteBlockToHtml (block : Str) : PyResult HTMLNode :=
  let content := List.intercalate ['\n']
    (((pySplit ['\n'] block).filter (fun l => decide (pyStrip l ≠ []))).map
      (fun l => pyStrip (lstripPred (fun c => c == '>') l)))
  match textToChildren content with
  | .err e => .err e
  | .ok children => mkParent (some (S "blockquote")) children []

/-- The per-item loop shared by the two list builders: skip blank items,
strip the structural marker of the item, tokenize, wrap in `li`. -/
def listItemsToHtml (stripItem : Str → Str) : List Str → PyResult (List HTMLNode)
  | [] => .ok []
  | item :: rest =>
    if pyStrip item = [] then listItemsToHtml stripItem rest
    else
      match textToChildren (stripItem item) with
      | .err e => .err e
      | .ok cs =>
        match mkParent (some (S "li")) cs [] with
        | .err e => .err e
        | .ok li =>
          match listItemsToHtml stripItem rest with
          | .err e => .err e
          | .ok others => .ok (li :: others)

/-- Model of `unordered_list_block_to_html`: one `li` per non-blank line,
with leading dash and space characters removed by the character-set strip
of the source. -/
def unorderedListBlockToHtml (block : Str) : PyResult HTMLNode :=
  match listItemsToHtml
      (fun item => pyStrip (lstripPred (fun c => c == '-' || c == ' ') item))
      (pySplit ['\n'] block) with
  | .err e => .err e
  | .ok children => mkParent (some (S "ul")) children []

/-- Model of the ordered-marker removal regex of the source: remove a
leading digit run, dot and whitespace run when all three are present,
otherwise leave unchanged. -/
def cutOrderedMark (item : Str) : Str :=
  let ds := item.takeWhile (fun c => c.isDigit)
  if ds = [] then item
  else
    match item.drop ds.length with
    | '.' :: rest =>
      let ws := rest.takeWhile isPySpace
      if ws = [] then item else rest.drop ws.length
    | _ => item

/-- Model of `ordered_list_block_to_html`: one `li` per non-blank line with the
numbering marker removed. -/
def orderedListBlockToHtml (block : Str) : PyResult HTMLNode :=
  match listItemsToHtml (fun item => pyStrip (cutOrderedMark item))
      (pySplit ['\n'] block) with
  | .err e => .err e
  | .ok children => mkParent (some (S "ol")) children []

/-- The per-block dispatch of `markdown_to_html_node`. -/
def buildBlock (block : Str) : PyResult HTMLNode :=
  match blockToBlockType block with
  | .heading => headingBlockToHtml block
  | .paragraph => paragraphBlockToHtml block
  | .code => codeBlockToHtml block
  | .quote => quoteBlockToHtml block
  | .unordered_list => unorderedListBlockToHtml block
  | .ordered_list => orderedListBlockToHtml block

/-- The block loop of `markdown_to_html_node`. -/
def blocksToHtml : List Str → PyResult (List HTMLNode)
  | [] => .ok []
  | b :: bs =>
    match buildBlock b with
    | .err e => .err e
    | .ok n =>
      match blocksToHtml bs with
      | .err e => .err e
      | .ok ns => .ok (n :: ns)

/-- Model of `markdown_to_html_node`: build every block and wrap in a `div`; with
no blocks, the `div` wraps a single empty untagged leaf. -/
def markdownToHtmlNode (markdown : Str) : PyResult HTMLNode :=
  match blocksToHtml (markdownToBlocks markdown) with
  | .err e => .err e
  | .ok [] =>
    (match mkLeaf none (some []) [] with
     | .err e => .err e
     | .ok l => mkParent (some (S "div")) [l] [])
  | .ok nodes => mkParent (some (S "div")) nodes []

/-- The line loop of `extract_title`. -/
def extractTitleGo : List Str → PyResult Str
  | [] => .err (S "No h1 header found in Markdown")
  | l :: ls =>
    let line := pyStrip l
    if leadMatch (S "# ") line = true ∧ leadMatch (S "##") line = false
    then .ok (pyStrip (lstripPred (fun c => c == '#' || c == ' ') line))
    else extractTitleGo ls

/-- Model of `extract_title`: the first stripped line that starts with `# `, with
all leading hash and space characters removed. -/
def extractTitle (markdown : Str) : PyResult Str :=
  extractTitleGo (pySplit ['\n'] markdown)

example : pySplit (S "**") (S "a**b**") = [S "a", S "b", S ""] := by decide
example : blockToBlockType (S "# T") = .heading := by decide
example : blockToBlockType (S "1. a\n2. b\n3. c") = .ordered_list := by decide
example : blockToBlockType (S "1. a\n3. b") = .paragraph := by decide
example : blockToBlockType (S "``````") = .paragraph := by decide
example : blockToBlockType (S "```x```") = .code := by decide
example : blockToBlockType (S "> a\n> b") = .quote := by decide
example : blockToBlockType (S "- a\n- b") = .unordered_list := by decide
example : extractMarkdownImages (S "x ![a](u.png) y") = [(S "a", S "u.png")] := by decide
example : extractMarkdownLinks (S "![a](u.png) [b](v)") = [(S "b", S "v")] := by decide
example : extractMarkdownLinks (S "[a]()") = [(S "a", S "")] := by decide
example : textToTextnodes (S "Hello **world**")
    = .ok [⟨S "Hello ", .text, none⟩, ⟨S "world", .bold, none⟩] := by decide
example : textToTextnodes (S "`x") = .err (S "Unmatched delimiter ` in text") := by decide
example : extractTitle (S "Text\n# Real Title\nMore") = .ok (S "Real Title") := by decide
example : extractTitle (S "## Hi") = .err (S "No h1 header found in Markdown") := by decide
example : renderResult (markdownToHtmlNode (S "# T\n\nHello **world**"))
    = .ok (S "<div><h1>T</h1><p>Hello <b>world</b></p></div>") := by decide
example : renderResult (markdownToHtmlNode (S "- a\n- b"))
    = .ok (S "<div><ul><li>a</li><li>b</li></ul></div>") := by decide
example : renderResult (markdownToHtmlNode (S "")) = .ok (S "<div></div>") := by decide

/-! ## Specification-side definitions used by the claim theorems -/

/-- Claim C2 as stated: the absent-tag case first (returning the value
verbatim, or the empty string when the value is also absent), then void
tags, then `<tag attrs>value</tag>`, failing only in the last case when
the value is absent. -/
def leafRenderClaimC2 (tag value : Option Str) (props : List (Str × Str)) :
    PyResult Str :=
  match tag with
  | none => .ok (value.getD [])
  | some t =>
    if isVoidTag (some t) = true then .ok ('<' :: t ++ propsToHtml props ++ ['>'])
    else
      match value with
      | none => .err (S "LeafNode requires a value for non-void elements")
      | some v => .ok ('<' :: t ++ propsToHtml props ++ ['>'] ++ v ++
                       '<' :: '/' :: t ++ ['>'])

/-- C2 amended: the value-absent check runs first and also fails when the
tag is absent or empty (neither is void); an absent or empty-string tag
returns the value verbatim; void tags render with no closing tag
regardless of value; all other tags render `<tag attrs>value</tag>`. -/
def leafRenderAmendedC2 (tag value : Option Str) (props : List (Str × Str)) :
    PyResult Str :=
  if value = none ∧ isVoidTag tag = false
  then .err (S "LeafNode requires a value for non-void elements")
  else
    match tag with
    | none => .ok (value.getD [])
    | some [] => .ok (value.getD [])
    | some t =>
      if isVoidTag (some t) = true then .ok ('<' :: t ++ propsToHtml props ++ ['>'])
      else .ok ('<' :: t ++ propsToHtml props ++ ['>'] ++ value.getD [] ++
                '<' :: '/' :: t ++ ['>'])

/-- Claim C3, spec-side description of a delimiter split: the parts of the
split in order, even indices plain and odd indices the target kind, with
every empty part dropped. -/
def delimiterSpanSpec (k : TextType) (parts : List Str) : List TextNode :=
  ((parts.enum).filter (fun ip => decide (ip.2 ≠ []))).map
    (fun ip => ⟨ip.2, if ip.1 % 2 = 0 then .text else k, none⟩)

/-- Claim C4 as stated: the first raw line starting with `# ` but not
`##`; the title is the content after that two-character marker, trimmed. -/
def c4ClaimTitle (m : Str) : PyResult Str :=
  match (pySplit ['\n'] m).find?
      (fun l => leadMatch (S "# ") l && !(leadMatch (S "##") l)) with
  | some l => .ok (pyStrip (l.drop 2))
  | none => .err (S "No h1 header found in Markdown")

/-- C4 amended: lines are stripped before the test; the title is the
stripped line with every leading hash and space character removed, then
stripped; failure exactly when no stripped line starts with `# `. -/
def c4AmendedTitle (m : Str) : PyResult Str :=
  match (pySplit ['\n'] m).find? (fun l => leadMatch (S "# ") (pyStrip l)) with
  | some l => .ok (pyStrip (lstripPred (fun c => c == '#' || c == ' ') (pyStrip l)))
  | none => .err (S "No h1 header found in Markdown")

/-- C6: boolean test for image spans. -/
def isImageSpan (tn : TextNode) : Bool :=
  match tn.text_type with
  | .image => true
  | _ => false

/-- Claim C8 as stated: the heading content is the block with the
leading hashes and the one following space removed, then trimmed. -/
def headingClaimC8 (block : Str) : PyResult HTMLNode :=
  if headingMatch block = true then
    match textToChildren
        (pyStrip (block.drop (leadCount (fun c => c == '#') block + 1))) with
    | .err e => .err e
    | .ok children =>
      mkParent (some ('h' :: natDigits (leadCount (fun c => c == '#') block)))
        children []
  else .err (S "Invalid heading format")

/-! ## Claim theorems: C1, C2, C10 -/

/-- Claim C1 (confirmed): rendering the document built from
`"# T\n\nHello **world**"` yields exactly
`"<div><h1>T</h1><p>Hello <b>world</b></p></div>"`. -/
theorem c1_end_to_end_render :
    renderResult (markdownToHtmlNode (S "# T\n\nHello **world**"))
      = .ok (S "<div><h1>T</h1><p>Hello <b>world</b></p></div>") := by
  decide

/-- Claim C2, counterexample: a leaf whose tag is the empty string (not
absent, not void) renders its value verbatim in the code, while the
case analysis of the claim prescribes `<>x</>`. -/
theorem c2_leaf_counterexample :
    leafToHtml (some []) (some (S "x")) [] ≠ leafRenderClaimC2 (some []) (some (S "x")) [] := by
  decide

/-- Claim C2 (corrected): `to_html` on a leaf equals the amended case
analysis — value-absent non-void fails first (also for absent or empty
tags), a falsy tag returns the value verbatim, void tags close nothing,
and the rest render `<tag attrs>value</tag>`. -/
theorem c2_leaf_render_cases (tag value : Option Str) (props : List (Str × Str)) :
    leafToHtml tag value props = leafRenderAmendedC2 tag value props := by
  cases tag with
  | none =>
    cases value <;> simp [leafToHtml, leafRenderAmendedC2, tagFalsy, isVoidTag]
  | some t =>
    cases t with
    | nil =>
      cases value <;>
        simp [leafToHtml, leafRenderAmendedC2, tagFalsy, isVoidTag, List.isEmpty]
    | cons c cs =>
      cases value with
      | none =>
        simp only [leafToHtml, leafRenderAmendedC2, tagFalsy, List.isEmpty]
        split
        · rfl
        · simp
      | some v =>
        simp only [leafToHtml, leafRenderAmendedC2, tagFalsy, List.isEmpty]
        split
        · simp
        · simp

/-- Witness for the C2 theorem at a concrete leaf. -/
theorem c2_leaf_render_cases_witness :
    leafToHtml (some (S "br")) none [] = leafRenderAmendedC2 (some (S "br")) none [] :=
  c2_leaf_render_cases (some (S "br")) none []

/-- Claim C10 (confirmed): a link or image span with an empty-string URL
fails `text_node_to_html_node` with the same error as an absent URL;
tokenizing `"[a]()"` / `"![a]()"` produces exactly such spans, and a
document containing one aborts conversion. -/
theorem c10_empty_url_errors (t : Str) :
    textNodeToHtmlNode ⟨t, .link, some []⟩ = .err (S "Link TextNode requires a url")
    ∧ textNodeToHtmlNode ⟨t, .link, some []⟩ = textNodeToHtmlNode ⟨t, .link, none⟩
    ∧ textNodeToHtmlNode ⟨t, .image, some []⟩ = .err (S "Image TextNode requires a url")
    ∧ textNodeToHtmlNode ⟨t, .image, some []⟩ = textNodeToHtmlNode ⟨t, .image, none⟩
    ∧ textToTextnodes (S "[a]()") = .ok [⟨S "a", .link, some []⟩]
    ∧ textToTextnodes (S "![a]()") = .ok [⟨S "a", .image, some []⟩]
    ∧ renderResult (markdownToHtmlNode (S "[a]()")) = .err (S "Link TextNode requires a url") :=
  ⟨rfl, rfl, rfl, rfl, by decide, by decide, by decide⟩

/-- Witness for the C10 theorem at a concrete span text. -/
theorem c10_empty_url_errors_witness :
    textNodeToHtmlNode ⟨S "a", .link, some []⟩ = .err (S "Link TextNode requires a url") :=
  (c10_empty_url_errors (S "a")).1

/-! ## Helper lemmas -/

theorem processParts_eq_spec (k : TextType) (parts : List Str) : ∀ n : Nat,
    processParts k n parts =
      ((List.enumFrom n parts).filter (fun ip => decide (ip.2 ≠ []))).map
        (fun ip => ⟨ip.2, if ip.1 % 2 = 0 then .text else k, none⟩) := by
  induction parts with
  | nil => intro n; rfl
  | cons p ps ih =>
    intro n
    by_cases hp : p = []
    · simp [processParts, hp, List.enumFrom, List.filter_cons, ih (n + 1)]
    · simp [processParts, hp, List.enumFrom, List.filter_cons, ih (n + 1)]

/-- Claim C3 (confirmed): splitting one plain span on a delimiter follows
the contract of the claim — even part counts raise the unmatched-delimiter
error, otherwise parts alternate plain/target with empty parts dropped
(so an empty plain span yields zero spans) — and non-plain spans pass
through unchanged; the two concrete cases quoted in the spec are included. -/
theorem c3_delimiter_split (t d : Str) (k : TextType) (n : TextNode)
    (hd : d ≠ []) (hn : n.text_type ≠ .text) :
    (splitNodesDelimiter [⟨t, .text, none⟩] d k =
      if (pySplit d t).length % 2 = 0
      then .err (S "Unmatched delimiter " ++ d ++ S " in text")
      else .ok (delimiterSpanSpec k (pySplit d t)))
    ∧ splitNodesDelimiter [n] d k = .ok [n]
    ∧ splitNodesDelimiter [⟨[], .text, none⟩] d k = .ok []
    ∧ splitNodesDelimiter [⟨S "**a** and **b**", .text, none⟩] (S "**") .bold =
        .ok [⟨S "a", .bold, none⟩, ⟨S " and ", .text, none⟩, ⟨S "b", .bold, none⟩]
    ∧ splitNodesDelimiter [⟨S "`x", .text, none⟩] (S "`") .code =
        .err (S "Unmatched delimiter ` in text") := by
  refine ⟨?_, ?_, ?_, by decide, by decide⟩
  · rw [show splitNodesDelimiter [(⟨t, .text, none⟩ : TextNode)] d k =
        (if (pySplit d t).length % 2 = 0
         then PyResult.err (S "Unmatched delimiter " ++ d ++ S " in text")
         else PyResult.ok (processParts k 0 (pySplit d t) ++ [])) from rfl]
    split
    · rfl
    · simp [delimiterSpanSpec, List.enum, processParts_eq_spec]
  · simp only [splitNodesDelimiter, if_neg hn]
  · rfl

/-- Witness for the C3 theorem: a concrete delimiter and non-plain span. -/
theorem c3_delimiter_split_witness :
    (S "*" ≠ [] ∧ (TextNode.mk (S "z") .bold none).text_type ≠ .text)
    ∧ splitNodesDelimiter [⟨S "z", .bold, none⟩] (S "*") .italic
        = .ok [⟨S "z", .bold, none⟩] :=
  ⟨⟨by decide, by decide⟩,
   (c3_delimiter_split (S "ab") (S "*") .italic ⟨S "z", .bold, none⟩
      (by decide) (by decide)).2.1⟩

theorem leadMatch_cons_iff (p : Char) (ps s : Str) :
    leadMatch (p :: ps) s = true ↔ ∃ r, s = p :: r ∧ leadMatch ps r = true := by
  cases s with
  | nil => simp [leadMatch]
  | cons c cs =>
    simp only [leadMatch, Bool.and_eq_true, beq_iff_eq]
    constructor
    · rintro ⟨h1, h2⟩
      exact ⟨cs, by rw [h1], h2⟩
    · rintro ⟨r, hr, h2⟩
      cases hr
      exact ⟨rfl, h2⟩

theorem leadMatch_hash_space (x : Str) (h : leadMatch (S "# ") x = true) :
    leadMatch (S "##") x = false := by
  obtain ⟨r1, hr1, h1⟩ := (leadMatch_cons_iff '#' [' '] x).1 h
  obtain ⟨r2, hr2, _⟩ := (leadMatch_cons_iff ' ' [] r1).1 h1
  subst hr2
  subst hr1
  simp [S, leadMatch]

theorem extractTitleGo_eq (ls : List Str) :
    extractTitleGo ls =
      match ls.find? (fun l => leadMatch (S "# ") (pyStrip l)) with
      | some l => .ok (pyStrip (lstripPred (fun c => c == '#' || c == ' ') (pyStrip l)))
      | none => .err (S "No h1 header found in Markdown") := by
  induction ls with
  | nil => rfl
  | cons l ls ih =>
    simp only [List.find?]
    by_cases h : leadMatch (S "# ") (pyStrip l) = true
    · rw [h]
      simp only [extractTitleGo]
      rw [if_pos ⟨h, leadMatch_hash_space _ h⟩]
    · have h2 : leadMatch (S "# ") (pyStrip l) = false := by simpa using h
      rw [h2]
      simp only [extractTitleGo]
      rw [if_neg (fun hc => h hc.1)]
      exact ih

/-- Claim C4, counterexample: for `"# #Hi"` the reading of the claim (content
after the `# ` marker, trimmed) gives `"#Hi"`, but the character-set strip of the code returns `"Hi"`. -/
theorem c4_title_counterexample :
    extractTitle (S "# #Hi") ≠ c4ClaimTitle (S "# #Hi") := by decide

/-- Claim C4 (corrected): `extract_title` scans lines top to bottom,
strips each line, takes the first stripped line starting with `# `
(such a line never starts with `##`), and returns that line with all
leading hash and space characters removed, then stripped; it fails
exactly when no stripped line starts with `# `. -/
theorem c4_extract_title (m : Str) : extractTitle m = c4AmendedTitle m := by
  unfold extractTitle c4AmendedTitle
  exact extractTitleGo_eq (pySplit ['\n'] m)

/-- Witness for the C4 theorem at a concrete document. -/
theorem c4_extract_title_witness :
    extractTitle (S "Text\n# Real Title\nMore") = c4AmendedTitle (S "Text\n# Real Title\nMore") :=
  c4_extract_title (S "Text\n# Real Title\nMore")

theorem splitOnMatches_link_no_images (ms : List (Str × Str)) : ∀ rem : Str,
    (splitOnMatches linkTok .link rem ms).filter isImageSpan = [] := by
  induction ms with
  | nil =>
    intro rem
    by_cases h : rem = [] <;> simp [splitOnMatches, h, isImageSpan, List.filter_cons]
  | cons m ms ih =>
    intro rem
    obtain ⟨a, u⟩ := m
    by_cases h : (pySplitOnce (linkTok a u) [] rem).headD [] = [] <;>
      simp [splitOnMatches, h, isImageSpan, List.filter_append, List.filter_cons, ih]

/-- Claim C6 (confirmed): tokenizing `"![a](x.png) [b](y.com)"` yields
exactly an image span, a plain space and a link span, and the link stage
neither creates nor destroys image spans (images extracted by the earlier
image stage survive link splitting untouched). -/
theorem c6_image_before_link :
    textToTextnodes (S "![a](x.png) [b](y.com)")
      = .ok [⟨S "a", .image, some (S "x.png")⟩, ⟨S " ", .text, none⟩,
             ⟨S "b", .link, some (S "y.com")⟩]
    ∧ ∀ ns : List TextNode,
        (splitNodesLink ns).filter isImageSpan = ns.filter isImageSpan := by
  refine ⟨by decide, ?_⟩
  intro ns
  induction ns with
  | nil => rfl
  | cons node rest ih =>
    rw [show splitNodesLink (node :: rest) =
        (if node.text_type = .text then
          (if node.text = [] then []
           else if extractMarkdownLinks node.text = [] then [node]
           else splitOnMatches linkTok .link node.text (extractMarkdownLinks node.text))
         else [node]) ++ splitNodesLink rest from rfl]
    rw [List.filter_append, ih, List.filter_cons]
    by_cases h : node.text_type = .text
    · have himg : isImageSpan node = false := by
        unfold isImageSpan
        rw [h]
      rw [if_pos h, himg]
      by_cases ht : node.text = []
      · rw [if_pos ht]
        simp
      · rw [if_neg ht]
        by_cases hl : extractMarkdownLinks node.text = []
        · rw [if_pos hl]
          simp [List.filter_cons, himg]
        · rw [if_neg hl, splitOnMatches_link_no_images]
          simp
    · rw [if_neg h]
      by_cases himg : isImageSpan node = true <;>
        simp [List.filter_cons, himg]

/-- Witness for the universally quantified conjunct of C6 at a concrete list. -/
theorem c6_image_before_link_witness :
    (splitNodesLink [⟨S "a", .image, some (S "u")⟩]).filter isImageSpan
      = [(⟨S "a", .image, some (S "u")⟩ : TextNode)].filter isImageSpan :=
  c6_image_before_link.2 [⟨S "a", .image, some (S "u")⟩]

theorem lstripPred_idem (p : Char → Bool) (s : Str) :
    lstripPred p (lstripPred p s) = lstripPred p s := by
  induction s with
  | nil => rfl
  | cons c cs ih =>
    by_cases h : p c = true
    · simp [lstripPred, h, ih]
    · simp [lstripPred, h]

theorem rstripPred_idem (p : Char → Bool) (s : Str) :
    rstripPred p (rstripPred p s) = rstripPred p s := by
  induction s with
  | nil => rfl
  | cons c cs ih =>
    rw [show rstripPred p (c :: cs) =
        (if rstripPred p cs = [] ∧ p c then [] else c :: rstripPred p cs) from rfl]
    split
    · rfl
    · next h =>
      rw [show rstripPred p (c :: rstripPred p cs) =
          (if rstripPred p (rstripPred p cs) = [] ∧ p c then []
           else c :: rstripPred p (rstripPred p cs)) from rfl]
      rw [ih, if_neg h]

theorem lstripPred_head_not (p : Char → Bool) (s : Str) :
    lstripPred p s = [] ∨ ∃ c cs, lstripPred p s = c :: cs ∧ p c = false := by
  induction s with
  | nil => exact Or.inl rfl
  | cons c cs ih =>
    by_cases h : p c = true
    · simpa [lstripPred, h] using ih
    · exact Or.inr ⟨c, cs, by simp [lstripPred, h], by simpa using h⟩

theorem pyStrip_idem (s : Str) : pyStrip (pyStrip s) = pyStrip s := by
  unfold pyStrip
  rcases lstripPred_head_not isPySpace s with h | ⟨c, cs, h, hc⟩
  · rw [h]; rfl
  · rw [h]
    rw [show rstripPred isPySpace (c :: cs) =
        (if rstripPred isPySpace cs = [] ∧ isPySpace c then []
         else c :: rstripPred isPySpace cs) from rfl]
    split
    · rfl
    · next hcond =>
      rw [show lstripPred isPySpace (c :: rstripPred isPySpace cs) =
          c :: rstripPred isPySpace cs from by simp [lstripPred, hc]]
      rw [show rstripPred isPySpace (c :: rstripPred isPySpace cs) =
          (if rstripPred isPySpace (rstripPred isPySpace cs) = [] ∧ isPySpace c then []
           else c :: rstripPred isPySpace (rstripPred isPySpace cs)) from rfl]
      rw [rstripPred_idem, if_neg hcond]

/-- Claim C9, counterexample: classification is not invariant under
stripping for arbitrary block strings — `" # x"` classifies as a
paragraph while its stripped form is a heading. -/
theorem c9_trim_counterexample :
    blockToBlockType (S " # x") ≠ blockToBlockType (pyStrip (S " # x")) := by decide

/-- Claim C9 (corrected): for every block actually produced by
`markdown_to_blocks` — the blocks the splitter hands to `classify`, which
are already stripped — classification is invariant under the trim. -/
theorem c9_classify_trim_invariant (m b : Str) (hb : b ∈ markdownToBlocks m) :
    blockToBlockType b = blockToBlockType (pyStrip b) := by
  unfold markdownToBlocks at hb
  rw [List.mem_filter] at hb
  obtain ⟨hmem, _⟩ := hb
  rw [List.mem_map] at hmem
  obtain ⟨a, _, rfl⟩ := hmem
  rw [pyStrip_idem]

/-- Witness for the C9 theorem at a concrete splitter output. -/
theorem c9_classify_trim_invariant_witness :
    blockToBlockType (S "# T") = blockToBlockType (pyStrip (S "# T")) :=
  c9_classify_trim_invariant (S "# T\n\nx") (S "# T") (by decide)

theorem pySplitGo_ne_nil (sep : Str) : ∀ (fuel : Nat) (acc s : Str),
    pySplitGo sep fuel acc s ≠ [] := by
  intro fuel
  induction fuel with
  | zero =>
    intro acc s
    cases s <;> simp [pySplitGo]
  | succ f ih =>
    intro acc s
    cases s with
    | nil => simp [pySplitGo]
    | cons c cs =>
      simp only [pySplitGo]
      split
      · simp
      · exact ih _ _

theorem pySplit_ne_nil (sep s : Str) : pySplit sep s ≠ [] :=
  pySplitGo_ne_nil sep s.length [] s

theorem pySplitGo_single (sep : Str) : ∀ (fuel : Nat) (acc s x : Str),
    pySplitGo sep fuel acc s = [x] → x = acc.reverse ++ s := by
  intro fuel
  induction fuel with
  | zero =>
    intro acc s x h
    cases s with
    | nil =>
      simp only [pySplitGo, List.cons.injEq, and_true] at h
      simp [h.symm]
    | cons c cs =>
      simp only [pySplitGo, List.cons.injEq, and_true] at h
      exact h.symm
  | succ f ih =>
    intro acc s x h
    cases s with
    | nil =>
      simp only [pySplitGo, List.cons.injEq, and_true] at h
      simp [h.symm]
    | cons c cs =>
      simp only [pySplitGo] at h
      split at h
      · rcases List.cons_eq_cons.mp h with ⟨_, h2⟩
        exact absurd h2 (pySplitGo_ne_nil sep f [] _)
      · have := ih (c :: acc) cs x h
        simpa [List.append_assoc] using this

theorem pySplit_single (sep s x : Str) (h : pySplit sep s = [x]) : x = s := by
  have := pySplitGo_single sep s.length [] s x h
  simpa using this

theorem pyStrip_cons_of_not_space (c : Char) (s : Str) (h : isPySpace c = false) :
    pyStrip (c :: s) = c :: rstripPred isPySpace s := by
  unfold pyStrip
  rw [show lstripPred isPySpace (c :: s) = c :: s from by simp [lstripPred, h]]
  rw [show rstripPred isPySpace (c :: s) =
      (if rstripPred isPySpace s = [] ∧ isPySpace c then []
       else c :: rstripPred isPySpace s) from rfl]
  rw [if_neg (fun hc => by rw [h] at hc; exact absurd hc.2 (by simp))]

theorem leadMatch_false_of_head_ne (p s : Str) (hp : p ≠ []) (hs : s ≠ [])
    (h : p.headD 'x' ≠ s.headD 'x') : leadMatch p s = false := by
  cases p with
  | nil => exact absurd rfl hp
  | cons a ps =>
    cases s with
    | nil => exact absurd rfl hs
    | cons b cs =>
      simp only [List.headD_cons] at h
      have hab : (a == b) = false := beq_false_of_ne h
      simp [leadMatch, hab]

/-- Claim C7 (confirmed): a single-line block whose stripped text starts
with three backticks classifies as Code exactly when the stripped block
also ends with three backticks and is strictly longer than six
characters, and as Paragraph otherwise; six bare backticks give a
paragraph. -/
theorem c7_single_line_code (b : Str)
    (h1 : (pySplit ['\n'] b).length = 1)
    (h2 : leadMatch (S "```") (pyStrip b) = true) :
    blockToBlockType b =
      (if trailMatch (S "```") (pyStrip b) = true ∧ 6 < (pyStrip b).length
       then .code else .paragraph)
    ∧ blockToBlockType (S "``````") = .paragraph := by
  refine ⟨?_, by decide⟩
  obtain ⟨l0, hl0⟩ := List.length_eq_one.mp h1
  have hb : l0 = b := pySplit_single _ _ _ hl0
  subst hb
  have hhm : headingMatch l0 = false := by
    cases hb : l0 with
    | nil =>
      rw [hb] at h2
      exact absurd h2 (by decide)
    | cons c cs =>
      by_cases hc : c = '#'
      · exfalso
        rw [hb, hc, pyStrip_cons_of_not_space '#' cs (by decide)] at h2
        rw [leadMatch_false_of_head_ne (S "```") ('#' :: rstripPred isPySpace cs)
          (by decide) (by simp)
          (fun hx => by rw [List.headD_cons] at hx; exact absurd hx (by decide))] at h2
        cases h2
      · have hcc : (c == '#') = false := beq_false_of_ne hc
        simp [hb, headingMatch, leadCount, hcc]
  simp only [blockToBlockType, hl0]
  rw [if_neg (fun hx => by rw [List.headD_cons] at hx; rw [hhm] at hx; exact absurd hx.2 (by simp))]
  rw [if_pos (show leadMatch (S "```") (pyStrip ([l0].headD [])) = true from h2)]
  rw [if_pos (show ([l0] : List Str).length = 1 from rfl)]
  by_cases hcond : trailMatch (S "```") (pyStrip l0) = true ∧ 6 < (pyStrip l0).length
  · rw [if_pos ⟨h2, hcond.1, hcond.2⟩, if_pos hcond]
  · rw [if_neg (fun hh => hcond ⟨hh.2.1, hh.2.2⟩), if_neg hcond]

/-- Witness for the C7 theorem at a concrete one-line code block. -/
theorem c7_single_line_code_witness :
    blockToBlockType (S "```x```") =
      (if trailMatch (S "```") (pyStrip (S "```x```")) = true ∧
          6 < (pyStrip (S "```x```")).length
       then BlockType.code else .paragraph) :=
  (c7_single_line_code (S "```x```") (by decide) (by decide)).1

theorem orderedValidFrom_iff : ∀ (ls : List Str) (st : Nat),
    orderedValidFrom st ls = true ↔
      ∀ i, i < ls.length →
        leadMatch (natDigits (st + i) ++ ['.', ' ']) (ls.getD i []) = true := by
  intro ls
  induction ls with
  | nil => intro st; simp [orderedValidFrom]
  | cons l ls ih =>
    intro st
    rw [show orderedValidFrom st (l :: ls) =
        (leadMatch (natDigits st ++ ['.', ' ']) l && orderedValidFrom (st + 1) ls) from rfl]
    rw [Bool.and_eq_true]
    constructor
    · rintro ⟨hl, hrest⟩ i hi
      cases i with
      | zero => simpa using hl
      | succ j =>
        have hj : j < ls.length := by simpa using hi
        have hstep := (ih (st + 1)).1 hrest j hj
        have heq : st + 1 + j = st + (j + 1) := by omega
        rw [heq] at hstep
        simpa using hstep
    · intro h
      refine ⟨by simpa using h 0 (by simp), (ih (st + 1)).2 ?_⟩
      intro j hj
      have hstep := h (j + 1) (by simpa using Nat.succ_lt_succ hj)
      have heq : st + (j + 1) = st + 1 + j := by omega
      rw [heq] at hstep
      simpa using hstep

/-- Claim C5 (confirmed): `classify` returns Ordered List exactly when
every 1-indexed line `i` starts with the decimal digits of `i`, a dot and
a space — numbering from 1 with increment exactly 1 — and the gap example of the spec classifies as a paragraph. -/
theorem c5_ordered_list_iff (b : Str) :
    (blockToBlockType b = .ordered_list ↔
      ∀ i, i < (pySplit ['\n'] b).length →
        leadMatch (natDigits (i + 1) ++ ['.', ' ']) ((pySplit ['\n'] b).getD i []) = true)
    ∧ blockToBlockType (S "1. a\n3. b") = .paragraph := by
  refine ⟨?_, by decide⟩
  constructor
  · intro h
    simp only [blockToBlockType] at h
    split at h
    · nomatch h
    · split at h
      · split at h
        · split at h
          · nomatch h
          · nomatch h
        · split at h
          · nomatch h
          · nomatch h
      · split at h
        · nomatch h
        · split at h
          · nomatch h
          · split at h
            · next hcond =>
              intro i hi
              have hstep := (orderedValidFrom_iff _ 1).1 hcond.1 i hi
              have heq : 1 + i = i + 1 := by omega
              rw [heq] at hstep
              exact hstep
            · nomatch h
  · intro hAll
    have hv : orderedValidFrom 1 (pySplit ['\n'] b) = true := by
      apply (orderedValidFrom_iff _ 1).2
      intro i hi
      have hstep := hAll i hi
      have heq : i + 1 = 1 + i := by omega
      rw [heq] at hstep
      exact hstep
    obtain ⟨l0, rest, hl⟩ : ∃ x xs, pySplit ['\n'] b = x :: xs := by
      cases hsp : pySplit ['\n'] b with
      | nil => exact absurd hsp (pySplit_ne_nil _ _)
      | cons x xs => exact ⟨x, xs, rfl⟩
    have h0 := hAll 0 (by rw [hl]; simp)
    rw [hl] at h0
    have h0h : leadMatch ['1', '.', ' '] l0 = true := by simpa using h0
    obtain ⟨r1, hr1, _⟩ := (leadMatch_cons_iff '1' ['.', ' '] l0).1 h0h
    have hg1 : ¬((l0 :: rest).length = 1 ∧ headingMatch ((l0 :: rest).headD []) = true) := by
      rintro ⟨_, hm⟩
      rw [List.headD_cons, hr1] at hm
      simp [headingMatch, leadCount, show (('1' : Char) == '#') = false from by decide] at hm
    have hg2 : ¬(leadMatch (S "```") (pyStrip ((l0 :: rest).headD [])) = true) := by
      rw [List.headD_cons, hr1, pyStrip_cons_of_not_space '1' r1 (by decide)]
      rw [leadMatch_false_of_head_ne (S "```") ('1' :: rstripPred isPySpace r1)
        (by decide) (by simp)
        (fun hx => by rw [List.headD_cons] at hx; exact absurd hx (by decide))]
      simp
    have hg3 : ¬((l0 :: rest).all (fun l => leadMatch ['>'] l) = true) := by
      intro hall
      rw [List.all_cons, Bool.and_eq_true] at hall
      have hq := hall.1
      rw [hr1] at hq
      rw [leadMatch_false_of_head_ne ['>'] ('1' :: r1) (by decide) (by simp)
        (fun hx => by simp only [List.headD_cons] at hx; exact absurd hx (by decide))] at hq
      cases hq
    have hg4 : ¬((l0 :: rest).all (fun l => leadMatch ['-', ' '] l) = true) := by
      intro hall
      rw [List.all_cons, Bool.and_eq_true] at hall
      have hq := hall.1
      rw [hr1] at hq
      rw [leadMatch_false_of_head_ne ['-', ' '] ('1' :: r1) (by decide) (by simp)
        (fun hx => by simp only [List.headD_cons] at hx; exact absurd hx (by decide))] at hq
      cases hq
    have hg5 : orderedValidFrom 1 (l0 :: rest) = true ∧ 0 < (l0 :: rest).length :=
      ⟨by rw [← hl]; exact hv, by simp⟩
    simp only [blockToBlockType, hl]
    rw [if_neg hg1, if_neg hg2, if_neg hg3, if_neg hg4, if_pos hg5]

/-- Witness for the C5 theorem: the classification of a well-numbered
two-line list follows from the iff at a concrete block. -/
theorem c5_ordered_list_iff_witness :
    blockToBlockType (S "1. a\n2. b") = .ordered_list :=
  (c5_ordered_list_iff (S "1. a\n2. b")).1.mpr (by decide)

/-- Claim C8, counterexample: on the heading block `"# #x"` the character-set strip of the code removes the own leading hash of the content, so the built
heading renders `<h1>x</h1>` while the content rule of the claim (strip the marker only, then trim) yields `<h1>#x</h1>`. -/
theorem c8_heading_counterexample :
    renderResult (headingBlockToHtml (S "# #x"))
      ≠ renderResult (headingClaimC8 (S "# #x")) := by decide

/-- Claim C8 (corrected): on a block matching the heading pattern the
builder produces an `h{level}` container with level the number of leading
hashes, and the content it tokenizes is the block with all leading hash
and space characters removed, then trimmed — so leading hashes or spaces
belonging to the content itself are removed as well. -/
theorem c8_heading_builder (b : Str) (h : headingMatch b = true) :
    headingBlockToHtml b =
      (match textToChildren (pyStrip (lstripPred (fun c => c == '#' || c == ' ') b)) with
       | .err e => .err e
       | .ok children =>
         mkParent (some ('h' :: natDigits (leadCount (fun c => c == '#') b)))
           children []) := by
  unfold headingBlockToHtml
  rw [if_pos h]

/-- Witness for the C8 theorem at a concrete heading block. -/
theorem c8_heading_builder_witness :
    headingBlockToHtml (S "## Heading") =
      (match textToChildren
          (pyStrip (lstripPred (fun c => c == '#' || c == ' ') (S "## Heading"))) with
       | .err e => .err e
       | .ok children =>
         mkParent (some ('h' :: natDigits (leadCount (fun c => c == '#') (S "## Heading"))))
           children []) :=
  c8_heading_builder (S "## Heading") (by decide)
example : pySplit (S ",") (S "") = [S ""] := by decide
example : pyStrip (S "  a b  ") = S "a b" := by decide
example : natDigits 120 = S "120" := by decide
example : pySplitOnce (S "--") [] (S "a--b--c") = [S "a", S "b--c"] := by decide
example : cutLead (S "```") (S "```x") = S "x" := by decide
example : leadCount (fun c => c == '#') (S "###x") = 3 := by decide
example : leafToHtml (some (S "b")) (some (S "x")) [] = .ok (S "<b>x</b>") := by decide
example : leafToHtml (some (S "img")) (some []) [(S "src", S "u"), (S "alt", S "a")]
    = .ok (S "<img src=\"u\" alt=\"a\">") := by decide
example : toHtml (.parent (some (S "p")) [.leaf none (some (S "hi")) []] [])
    = .ok (S "<p>hi</p>") := by decide
example : toHtml (.parent (some (S "p")) [] []) = .err (S "ParentNode has no children") := by
  decide
